import Mathlib

/-
Verification development for the teraflow-webscraper repository.

The Python sources under src/ are shallowly embedded as executable Lean
definitions.  External HTTP services (search provider, scraper, LLM,
storage/notification sink) are modelled as explicit oracle values passed
into the orchestrator functions; everything the repository itself computes
is translated faithfully from the source.
-/

/-! ## Python-style string helpers

Small executable models of the Python string operations used by the
sources: str.strip, str.split (no argument), str.lower, substring
containment, and the truthiness idiom x or y on strings. -/

/-- Model of Python str.strip with no argument: drop whitespace from both ends. -/
def pyStrip (s : String) : String :=
  (((s.toList.dropWhile Char.isWhitespace).reverse.dropWhile Char.isWhitespace).reverse).asString

/-- Accumulator loop splitting a character list at whitespace runs,
dropping empty tokens. -/
def wsTokensAux : List Char → List Char → List (List Char)
  | [], cur => if cur.isEmpty then [] else [cur.reverse]
  | c :: cs, cur =>
    if c.isWhitespace then
      if cur.isEmpty then wsTokensAux cs [] else cur.reverse :: wsTokensAux cs []
    else wsTokensAux cs (c :: cur)

/-- Model of Python str.split with no argument: whitespace-separated tokens. -/
def pySplitWS (s : String) : List String :=
  (wsTokensAux s.toList []).map List.asString

/-- Model of Python str.lower for the ASCII texts handled here. -/
def pyLower (s : String) : String :=
  (s.toList.map Char.toLower).asString

/-- Does the second list occur as a prefix of the first? -/
def listStartsWith : List Char → List Char → Bool
  | _, [] => true
  | [], _ :: _ => false
  | h :: hs, p :: ps => h = p && listStartsWith hs ps

/-- Does the second list occur as a contiguous sublist of the first?
Model of the Python `needle in hay` substring test. -/
def listContainsSub : List Char → List Char → Bool
  | [], needle => needle.isEmpty
  | h :: t, needle => listStartsWith (h :: t) needle || listContainsSub t needle

/-- Model of the Python substring test `needle in hay`. -/
def strContains (hay needle : String) : Bool :=
  listContainsSub hay.toList needle.toList

/-- Accumulator loop splitting a character list at every occurrence of a
separator character, keeping empty pieces. -/
def splitCharAux (sep : Char) : List Char → List Char → List (List Char)
  | [], cur => [cur.reverse]
  | c :: cs, cur =>
    if c = sep then cur.reverse :: splitCharAux sep cs []
    else splitCharAux sep cs (c :: cur)

/-- Model of Python str.split with a one-character separator. -/
def pySplitChar (s : String) (sep : Char) : List String :=
  (splitCharAux sep s.toList []).map List.asString

/-- Fuel-driven loop splitting a character list at every non-overlapping
occurrence of a nonempty separator, scanning left to right. -/
def splitSubAux (sep : List Char) : Nat → List Char → List Char → List (List Char)
  | 0, rest, cur => [cur.reverse ++ rest]
  | _ + 1, [], cur => [cur.reverse]
  | f + 1, c :: cs, cur =>
    if listStartsWith (c :: cs) sep then
      cur.reverse :: splitSubAux sep f ((c :: cs).drop sep.length) []
    else splitSubAux sep f cs (c :: cur)

/-- Model of Python str.split with a nonempty string separator. -/
def pySplitOnStr (s : String) (sep : String) : List String :=
  (splitSubAux sep.toList (s.toList.length + 1) s.toList []).map List.asString

/-- Fuel-driven loop replacing every non-overlapping occurrence of a
nonempty pattern, scanning left to right. -/
def replaceSubAux (pat repl : List Char) : Nat → List Char → List Char
  | 0, rest => rest
  | _ + 1, [] => []
  | f + 1, c :: cs =>
    if listStartsWith (c :: cs) pat then
      repl ++ replaceSubAux pat repl f ((c :: cs).drop pat.length)
    else c :: replaceSubAux pat repl f cs

/-- Model of Python str.replace with a nonempty pattern. -/
def pyReplace (s pat repl : String) : String :=
  (replaceSubAux pat.toList repl.toList (s.toList.length + 1) s.toList).asString

/-- Model of Python str.startswith. -/
def strStartsWith (s pre : String) : Bool :=
  listStartsWith s.toList pre.toList

/-- Model of Python sep.join on a list of strings. -/
def joinWith (sep : String) : List String → String
  | [] => ""
  | [x] => x
  | x :: y :: xs => x ++ sep ++ joinWith sep (y :: xs)

/-- Model of the Python string idiom `a or b`: b when a is empty. -/
def pyOr (a b : String) : String := if a = "" then b else a

/-- Model of Python slicing s[:n] (by characters). -/
def pyTake (s : String) (n : Nat) : String := (s.toList.take n).asString

/-- Python truthiness of an optional string: false for None and for the
empty string. -/
def pyTruthyOpt : Option String → Bool
  | some s => s ≠ ""
  | none => false

/-! ## Regex matchers

Models of the two `re.search` patterns used by `research_agent.py`:
the email pattern from line 107 and the standalone-integer pattern from
lines 115 and 196.  Word characters, the character classes and the
word-boundary semantics follow the Python `re` module on ASCII text. -/

/-- A regex word character: letters, digits and the underscore. -/
def isWordChar (c : Char) : Bool := c.isAlphanum || c = '_'

/-- Word-character status of an optional character; the edge of the string
counts as a non-word position. -/
def isWordOpt : Option Char → Bool
  | none => false
  | some c => isWordChar c

/-- The word-boundary test of the regex engine between two adjacent
positions. -/
def atBoundary (p n : Option Char) : Bool := isWordOpt p != isWordOpt n

/-- Characters of the local-part class [A-Za-z0-9._%+-]. -/
def isLocalChar (c : Char) : Bool :=
  c.isAlphanum || c = '.' || c = '_' || c = '%' || c = '+' || c = '-'

/-- Characters of the domain class [A-Za-z0-9.-]. -/
def isDomChar (c : Char) : Bool := c.isAlphanum || c = '.' || c = '-'

/-- Characters of the top-level-domain class [A-Z|a-z] (the class in the
source contains a literal bar). -/
def isTldChar (c : Char) : Bool := c.isAlpha || c = '|'

/-- Backtracking over the length of the final [A-Z|a-z]-run: try the
greedy length first, then shorter ones, down to the minimum of two,
checking the trailing word boundary each time.  t is the maximal
top-level-domain run at the position after the dot, rem the full suffix
starting there. -/
def tryTld (t rem : List Char) : Nat → Option Nat
  | 0 => none
  | j + 1 =>
    if j + 1 < 2 then none
    else if atBoundary (t.get? j) (rem.get? (j + 1)) then some (j + 1)
    else tryTld t rem j

/-- Backtracking over the split of the greedy [A-Za-z0-9.-]-run `run` into
a nonempty domain part, a literal dot and the final run: try the dot
furthest to the right first.  The counter is the dot index currently
tried; `after` is the suffix following the run. -/
def tryDots (run after : List Char) : Nat → Option (Nat × Nat)
  | 0 => none
  | i + 1 =>
    if run.get? (i + 1) = some '.' then
      match tryTld ((run.drop (i + 2) ++ after).takeWhile isTldChar)
          (run.drop (i + 2) ++ after)
          ((run.drop (i + 2) ++ after).takeWhile isTldChar).length with
      | some j => some (i + 1, j)
      | none => tryDots run after i
    else tryDots run after i

/-- Attempt to match the email pattern at the start of cs, with prev the
character just before that position.  Returns the matched characters. -/
def matchEmailAt (prev : Option Char) (cs : List Char) : Option (List Char) :=
  if atBoundary prev cs.head? then
    match cs.takeWhile isLocalChar, cs.dropWhile isLocalChar with
    | l0 :: ls, a :: r2 =>
      if a = '@' then
        match tryDots (r2.takeWhile isDomChar) (r2.dropWhile isDomChar)
            ((r2.takeWhile isDomChar).length - 1) with
        | some (i, j) => some (cs.take ((l0 :: ls).length + 1 + i + 1 + j))
        | none => none
      else none
    | _, _ => none
  else none

/-- Leftmost search of the email pattern, as re.search does: try every
start position from the left. -/
def searchEmailFrom : Option Char → List Char → Option (List Char)
  | _, [] => none
  | prev, c :: cs =>
    match matchEmailAt prev (c :: cs) with
    | some m => some m
    | none => searchEmailFrom (some c) cs

/-- Model of re.search with the email pattern of
`_fallback_intent_analysis`, returning the matched text. -/
def emailSearch (s : String) : Option String :=
  (searchEmailFrom none s.toList).map List.asString

/-- Attempt to match the standalone-integer pattern at the start of cs.
A digit run matches only when bordered by non-word positions; shorter
runs cannot help because a digit is itself a word character. -/
def matchNumAt (prev : Option Char) (cs : List Char) : Option (List Char) :=
  if atBoundary prev cs.head? then
    let ds := cs.takeWhile Char.isDigit
    if ds.isEmpty then none
    else if isWordOpt (cs.dropWhile Char.isDigit).head? then none
    else some ds
  else none

/-- Leftmost search of the standalone-integer pattern. -/
def searchNumFrom : Option Char → List Char → Option (List Char)
  | _, [] => none
  | prev, c :: cs =>
    match matchNumAt prev (c :: cs) with
    | some m => some m
    | none => searchNumFrom (some c) cs

/-- Numeric value of a digit run, as Python int() of the matched group. -/
def digitsVal (ds : List Char) : Nat :=
  ds.foldl (fun acc c => acc * 10 + (c.toNat - 48)) 0

/-- The first standalone integer in a message, as extracted by the
pattern at `research_agent.py` lines 115 and 196. -/
def extractFirstNat (s : String) : Option Nat :=
  (searchNumFrom none s.toList).map digitsVal

/-! ## JSON values and a parser

Model of the Python json.loads calls in `llm_client.py`: a JSON value
type and a strict parser (fuel-based recursion).  json.loads accepts any
top-level JSON value, so the value type has all six kinds. -/

/-- A parsed JSON value, as produced by json.loads. -/
inductive JValue where
  | jnull : JValue
  | jbool (b : Bool) : JValue
  | jnum (raw : List Char) : JValue
  | jstr (s : String) : JValue
  | jarr (xs : List JValue) : JValue
  | jobj (kvs : List (String × JValue)) : JValue

/-- Skip JSON whitespace. -/
def skipWs : List Char → List Char :=
  List.dropWhile (fun c => c = ' ' || c = '\t' || c = '\n' || c = '\r')

/-- Value of a hexadecimal digit. -/
def hexVal (c : Char) : Option Nat :=
  if c.isDigit then some (c.toNat - 48)
  else if 'a' ≤ c && c ≤ 'f' then some (c.toNat - 87)
  else if 'A' ≤ c && c ≤ 'F' then some (c.toNat - 55)
  else none

/-- Parse the rest of a JSON string after the opening quote; returns the
decoded characters and the remaining input. -/
def parseStringRest : Nat → List Char → Option (List Char × List Char)
  | 0, _ => none
  | f + 1, cs =>
    match cs with
    | [] => none
    | '"' :: r => some ([], r)
    | '\\' :: e :: r =>
      match e with
      | '"' => (parseStringRest f r).map (fun p => ('"' :: p.1, p.2))
      | '\\' => (parseStringRest f r).map (fun p => ('\\' :: p.1, p.2))
      | '/' => (parseStringRest f r).map (fun p => ('/' :: p.1, p.2))
      | 'b' => (parseStringRest f r).map (fun p => (Char.ofNat 8 :: p.1, p.2))
      | 'f' => (parseStringRest f r).map (fun p => (Char.ofNat 12 :: p.1, p.2))
      | 'n' => (parseStringRest f r).map (fun p => ('\n' :: p.1, p.2))
      | 'r' => (parseStringRest f r).map (fun p => ('\r' :: p.1, p.2))
      | 't' => (parseStringRest f r).map (fun p => ('\t' :: p.1, p.2))
      | 'u' =>
        match r with
        | h1 :: h2 :: h3 :: h4 :: r' =>
          match hexVal h1, hexVal h2, hexVal h3, hexVal h4 with
          | some a, some b, some c, some d =>
            (parseStringRest f r').map
              (fun p => (Char.ofNat (a * 4096 + b * 256 + c * 16 + d) :: p.1, p.2))
          | _, _, _, _ => none
        | _ => none
      | _ => none
    | c :: r =>
      if c.toNat < 32 then none
      else (parseStringRest f r).map (fun p => (c :: p.1, p.2))

/-- Parse an optional JSON fraction part. -/
def parseFrac (cs : List Char) : Option (List Char × List Char) :=
  match cs with
  | '.' :: r =>
    let ds := r.takeWhile Char.isDigit
    if ds.isEmpty then none else some ('.' :: ds, r.dropWhile Char.isDigit)
  | _ => some ([], cs)

/-- Parse an optional JSON exponent part. -/
def parseExp (cs : List Char) : Option (List Char × List Char) :=
  match cs with
  | c :: r =>
    if c = 'e' || c = 'E' then
      let (sgn, r2) : List Char × List Char :=
        match r with
        | s :: r' => if s = '+' || s = '-' then ([s], r') else ([], r)
        | [] => ([], r)
      let ds := r2.takeWhile Char.isDigit
      if ds.isEmpty then none
      else some (c :: sgn ++ ds, r2.dropWhile Char.isDigit)
    else some ([], cs)
  | [] => some ([], [])

/-- Parse a JSON number per the JSON grammar, returning its raw text. -/
def parseNumber (cs : List Char) : Option (List Char × List Char) :=
  let (neg, cs1) : List Char × List Char :=
    match cs with
    | '-' :: r => (['-'], r)
    | _ => ([], cs)
  match cs1 with
  | [] => none
  | c :: r =>
    if c = '0' then
      match parseFrac r with
      | none => none
      | some (fr, r2) =>
        match parseExp r2 with
        | none => none
        | some (ex, r3) => some (neg ++ ['0'] ++ fr ++ ex, r3)
    else if c.isDigit then
      let ds := (c :: r).takeWhile Char.isDigit
      let r1 := (c :: r).dropWhile Char.isDigit
      match parseFrac r1 with
      | none => none
      | some (fr, r2) =>
        match parseExp r2 with
        | none => none
        | some (ex, r3) => some (neg ++ ds ++ fr ++ ex, r3)
    else none

mutual

/-- Parse one JSON value. -/
def parseValue : Nat → List Char → Option (JValue × List Char)
  | 0, _ => none
  | f + 1, cs0 =>
    let cs := skipWs cs0
    match cs with
    | [] => none
    | c :: r =>
      if c = '"' then
        (parseStringRest (r.length + 1) r).map (fun p => (.jstr p.1.asString, p.2))
      else if c = 't' then
        if listStartsWith cs ['t', 'r', 'u', 'e'] then some (.jbool true, cs.drop 4) else none
      else if c = 'f' then
        if listStartsWith cs ['f', 'a', 'l', 's', 'e'] then some (.jbool false, cs.drop 5) else none
      else if c = 'n' then
        if listStartsWith cs ['n', 'u', 'l', 'l'] then some (.jnull, cs.drop 4) else none
      else if c = '\x7b' then
        match skipWs r with
        | '\x7d' :: r2 => some (.jobj [], r2)
        | r1 => parseMembers f r1 []
      else if c = '[' then
        match skipWs r with
        | ']' :: r2 => some (.jarr [], r2)
        | r1 => parseElems f r1 []
      else
        match parseNumber cs with
        | some (raw, r') => some (.jnum raw, r')
        | none => none

/-- Parse the elements of a JSON array after the opening bracket. -/
def parseElems : Nat → List Char → List JValue → Option (JValue × List Char)
  | 0, _, _ => none
  | f + 1, cs, acc =>
    match parseValue f cs with
    | none => none
    | some (v, r) =>
      match skipWs r with
      | ',' :: r2 => parseElems f r2 (acc ++ [v])
      | ']' :: r2 => some (.jarr (acc ++ [v]), r2)
      | _ => none

/-- Parse the members of a JSON object after the opening brace. -/
def parseMembers : Nat → List Char → List (String × JValue) → Option (JValue × List Char)
  | 0, _, _ => none
  | f + 1, cs, acc =>
    match skipWs cs with
    | '"' :: r =>
      match parseStringRest (r.length + 1) r with
      | none => none
      | some (k, r1) =>
        match skipWs r1 with
        | ':' :: r2 =>
          match parseValue f r2 with
          | none => none
          | some (v, r3) =>
            match skipWs r3 with
            | ',' :: r4 => parseMembers f r4 (acc ++ [(k.asString, v)])
            | '\x7d' :: r4 => some (.jobj (acc ++ [(k.asString, v)]), r4)
            | _ => none
        | _ => none
    | _ => none

end

/-- Model of Python json.loads: parse one value and require the whole
input to be consumed; failure is None. -/
def jsonLoads (s : String) : Option JValue :=
  match parseValue (s.length + 2) s.toList with
  | some (v, r) => if (skipWs r).isEmpty then some v else none
  | none => none

/-! ## llm_client.py -/

namespace LLMClient

/-- The sentinel used for an undetermined what_they_sell field
(`llm_client.py` line 171). -/
def sentinelSell : String := "Unable to determine products/services from available content"

/-- The sentinel used for an undetermined who_they_target field
(`llm_client.py` line 172). -/
def sentinelTarget : String := "Unable to determine target audience from available content"

/-- The sentinel used for an undetermined condensed_summary field
(`llm_client.py` line 173). -/
def sentinelSummary : String := "Research completed for company analysis"

/-- The section currently being accumulated by `_parse_text_analysis`. -/
inductive Sect where
  | sell : Sect
  | target : Sect
  | summary : Sect
deriving DecidableEq

/-- One line-step of the `_parse_text_analysis` loop.  State is the
current section and the three accumulators. -/
def parseLineStep (st : Option Sect × String × String × String) (rawLine : String) :
    Option Sect × String × String × String :=
  let cur := st.1
  let w := st.2.1
  let t := st.2.2.1
  let s := st.2.2.2
  let line := pyStrip rawLine
  let lc := pyLower line
  if strContains lc "what they sell" || strContains lc "what_they_sell" then
    (some .sell, w, t, s)
  else if strContains lc "who they target" || strContains lc "who_they_target" then
    (some .target, w, t, s)
  else if strContains lc "condensed summary" || strContains lc "condensed_summary"
      || strContains lc "summary" then
    (some .summary, w, t, s)
  else if line ≠ "" && cur.isSome && !strStartsWith line "\x7b" && !strStartsWith line "\x7d" then
    match cur with
    | some .sell => (cur, w ++ line ++ " ", t, s)
    | some .target => (cur, w, t ++ line ++ " ", s)
    | some .summary => (cur, w, t, s ++ line ++ " ")
    | none => st
  else st

/-- Build the result record of `_parse_text_analysis` from the final
accumulator state: stripped accumulations, with sentinels for empty ones. -/
def mkAnalysisObj (st : Option Sect × String × String × String) : JValue :=
  .jobj [("what_they_sell", .jstr (pyOr (pyStrip st.2.1) sentinelSell)),
         ("who_they_target", .jstr (pyOr (pyStrip st.2.2.1) sentinelTarget)),
         ("condensed_summary", .jstr (pyOr (pyStrip st.2.2.2) sentinelSummary))]

/-- Model of `LLMClient._parse_text_analysis`: scan the lines of the raw
model output for keyword anchors and accumulate the three fields,
substituting the sentinels when a field stays empty. -/
def parse_text_analysis (text : String) : JValue :=
  mkAnalysisObj ((pySplitChar text '\n').foldl parseLineStep (none, "", "", ""))

/-- Model of `LLMClient.analyze_company_content`, as a function of the raw
text generated by the model (the HTTP call behind generate_response is the
oracle input): return the json.loads value when the response parses;
otherwise fall back to `_parse_text_analysis`. -/
def analyze_company_content (response : String) : JValue :=
  match jsonLoads response with
  | some v => v
  | none => parse_text_analysis response

/-- Last-wins lookup in a JSON object member list, as in a Python dict
built by json.loads. -/
def jGet : List (String × JValue) → String → Option JValue
  | [], _ => none
  | (k', v) :: t, k =>
    match jGet t k with
    | some v' => some v'
    | none => if k' = k then some v else none

/-- Is the given member present with a nonempty string value? -/
def populatedStr : Option JValue → Bool
  | some (.jstr s) => s ≠ ""
  | _ => false

/-- Does an analysis result carry all three expected fields, each
populated with a nonempty string? -/
def hasAllThreeFields (v : JValue) : Bool :=
  match v with
  | .jobj kvs =>
    populatedStr (jGet kvs "what_they_sell") &&
    populatedStr (jGet kvs "who_they_target") &&
    populatedStr (jGet kvs "condensed_summary")
  | _ => false

end LLMClient

/-! ## search_api.py -/

namespace SearchAPI

/-- One organic result item of the search provider response; a missing
key is None. -/
structure SerperItem where
  link : Option String := none
  title : Option String := none
  snippet : Option String := none
deriving DecidableEq

/-- One entry of the list returned by `SearchAPI.search`. -/
structure SearchResult where
  url : String
  title : String
  snippet : String
deriving DecidableEq

/-- Model of `SearchAPI._search_serper`, as a function of the organic
result list of the provider response: keep the first num_results items,
reading each field with an empty-string default. -/
def search_serper (organic : List SerperItem) (num_results : Nat) : List SearchResult :=
  (organic.take num_results).map
    (fun it => { url := it.link.getD "", title := it.title.getD "",
                 snippet := it.snippet.getD "" })

/-- Model of `SearchAPI.search`.  The provider response is the oracle:
an error value stands for a transport error, timeout or non-2xx status
raised inside `_search_serper` (caught by the provider loop), an ok value
carries the organic result list.  A provider exception or an empty result
list falls through the loop to the final empty return. -/
def search (resp : Except String (List SerperItem)) (_query : String)
    (num_results : Nat) : List SearchResult :=
  match resp with
  | .error _ => []
  | .ok organic =>
    let results := search_serper organic num_results
    if results.isEmpty then [] else results

end SearchAPI

/-! ## web_scraper.py -/

namespace WebScraper

/-- One page object of a completed crawl job; missing keys are None. -/
structure PageData where
  url : Option String := none
  markdown : Option String := none
deriving DecidableEq

/-- The labeled section built for one crawled page, or none when the page
content is blank after stripping (`web_scraper.py` lines 42-48). -/
def pageSection (baseUrl : String) (idx : Nat) (p : PageData) : Option String :=
  let page_url := p.url.getD baseUrl
  let page_content := p.markdown.getD ""
  if pyStrip page_content ≠ "" then
    some ("=== PAGE " ++ toString (idx + 1) ++ ": " ++ page_url ++ " ===" ++ "\n\n"
          ++ page_content)
  else none

/-- Model of `WebScraper._scrape_single_page`, as a function of the
markdown content delivered by the scrape endpoint (None for any request
failure or unsuccessful response): label nonempty content with its URL. -/
def scrape_single_page (single : Option String) (url : String) : Option String :=
  match single with
  | some content =>
    if content ≠ "" then some ("=== PAGE: " ++ url ++ " ===" ++ "\n\n" ++ content)
    else none
  | none => none

/-- Model of `WebScraper.scrape_website`.  The crawl oracle is the page
list of a completed crawl job, or None for any crawl failure or timeout;
the single oracle feeds the single-page fallback.  Pages are limited to
max_pages, blank pages are skipped, and sections are joined with the page
break marker; when nothing results, the single-page fallback runs. -/
def scrape_website (crawl : Option (List PageData)) (single : Option String)
    (url : String) (max_pages : Nat := 15) : Option String :=
  match crawl with
  | some pages =>
    if pages.length > 0 then
      let combined := (pages.take max_pages).enum.filterMap
        (fun p => pageSection url p.1 p.2)
      if combined ≠ [] then
        some (joinWith "\n\n---PAGE BREAK---\n\n" combined)
      else scrape_single_page single url
    else scrape_single_page single url
  | none => scrape_single_page single url

end WebScraper

/-! ## n8n_webhook.py -/

namespace N8NWebhook

/-- Model of the payload preparation in `N8NWebhook.send_data`: the given
fields are posted unmodified, with a timestamp added. -/
def prepare_payload (payload : List (String × String)) (timestamp : String) :
    List (String × String) :=
  payload ++ [("timestamp", timestamp)]

end N8NWebhook

/-! ## session_helpers.py -/

namespace SessionHelpers

/-- One entry of the chat history. -/
structure ChatMsg where
  role : String
  content : String
  urls : Option (List String) := none
deriving DecidableEq

/-- The greeting message installed by init_session and by reset_session. -/
def greetingText : String :=
  "👋 Hello! I\x27m your AI research assistant. Tell me which company you\x27d like me to research and your email address, and I\x27ll provide you with a comprehensive analysis.\n\nFor example: *\x27Research Stripe, send results to john@company.com\x27*"

/-- The per-conversation session state held in st.session_state: the chat
history plus the research fields of `session_helpers.py` lines 17-28. -/
structure Session where
  chat_history : List ChatMsg
  company_name : Option String := none
  user_email : Option String := none
  confirmed_url : Option String := none
  candidate_urls : List String := []
  scraped_content : Option String := none
  what_they_sell : Option String := none
  who_they_sell_to : Option String := none
  airtable_record_id : Option String := none
  agent_state : String := "initial"
  current_status : Option String := none
deriving DecidableEq

/-- Model of init_session on a fresh session: the greeting plus the
defaults. -/
def init_session : Session :=
  { chat_history := [{ role := "assistant", content := greetingText }] }

/-- Model of reset_session: the chat history is replaced by a fresh
single greeting entry, every research field is set back to None (the
candidate list to empty) and the agent state to initial. -/
def reset_session (_s : Session) : Session :=
  { chat_history := [{ role := "assistant", content := greetingText }],
    company_name := none, user_email := none, confirmed_url := none,
    candidate_urls := [], scraped_content := none, what_they_sell := none,
    who_they_sell_to := none, airtable_record_id := none,
    agent_state := "initial", current_status := none }

end SessionHelpers

/-! ## research_agent.py -/

namespace ResearchAgent

open SessionHelpers

/-- The intent record produced by `_analyze_user_intent` and consumed by
`process_message`.  An absent key is None; reading an absent key in a
handler is the KeyError path of the dispatcher. -/
structure Intent where
  action : String := "unclear"
  company : Option String := none
  email : Option String := none
  url_selection : Option Nat := none
deriving DecidableEq

/-- Model of `ResearchAgent._fallback_intent_analysis`: search for an
email, then (in the URL-selection state) for a standalone integer, then
classify short email-free messages as a company name. -/
def fallback_intent_analysis (message : String) (current_state : String) : Intent :=
  let i0 : Intent := { action := "unclear" }
  let i1 :=
    match emailSearch message with
    | some e => { i0 with email := some e, action := "provide_email" }
    | none => i0
  let i2 :=
    if current_state = "awaiting_url_selection" then
      match extractFirstNat message with
      | some n => { i1 with action := "select_url", url_selection := some n }
      | none => i1
    else i1
  if !pyTruthyOpt i2.email && (pySplitWS message).length ≤ 5 then
    { i2 with company := some (pyStrip message), action := "provide_company" }
  else i2

/-- The oracle bundle for the external services touched while one user
message is processed: the intent LLM (None stands for any failure of the
call or of parsing its output, which falls back to the rule-based
analyzer), the search provider, the two scraper endpoints, the analysis
and follow-up LLM calls (error values carry the exception text), and the
result sink (record creation result and email send outcome). -/
structure Oracles where
  intentLLM : Option Intent := none
  search : Except String (List SearchAPI.SerperItem) := .error "down"
  crawl : Option (List WebScraper.PageData) := none
  single : Option String := none
  llmAnalysis : Except String String := .error "down"
  createRecord : Except String (Option String) := .ok none
  sendEmail : Except String Unit := .ok ()
  followup : Except String String := .error "down"

/-- A reply to the user: plain text, or the structured reply carrying the
candidate URL list. -/
inductive Reply where
  | text (s : String) : Reply
  | withUrls (message : String) (urls : List String) : Reply
deriving DecidableEq

/-- The outcome of handling one user message: the updated session, the
reply, and the number of Result Sink publish calls performed (calls of
`_finalize_research`). -/
structure StepResult where
  session : Session
  reply : Reply
  publishes : Nat
deriving DecidableEq

/-- Python f-string rendering of an optional string: None prints as
"None". -/
def optStr : Option String → String
  | some s => s
  | none => "None"

/-- The record handed to the result sink by `_finalize_research`
(`research_agent.py` lines 306-311): the scraped content is sliced to
50000 characters, the other fields are passed through. -/
structure SinkRecord where
  company_name : Option String
  what_they_sell : Option String
  who_they_sell_to : Option String
  scraped_content : String
deriving DecidableEq

/-- The sink record built from a session by `_finalize_research`. -/
def sink_record (s : Session) : SinkRecord :=
  { company_name := s.company_name,
    what_they_sell := s.what_they_sell,
    who_they_sell_to := s.who_they_sell_to,
    scraped_content := pyTake (s.scraped_content.getD "") 50000 }

/-- Model of `ResearchAgent._finalize_research`: build the sink record
and perform the one publish call (Airtable record creation plus, when a
record id came back, the email send).  Exceptions from the sink are
caught and folded into a status warning.  Returns the updated session,
the record that was transmitted and the number of publish calls (1). -/
def finalize_research (o : Oracles) (s : Session) : Session × SinkRecord × Nat :=
  let record := sink_record s
  match o.createRecord with
  | .error e =>
    let warn := "⚠️ Research complete but error in final steps: " ++ e
    ({ s with current_status := some warn }, record, 1)
  | .ok none => (s, record, 1)
  | .ok (some rid) =>
    let s1 := { s with airtable_record_id := some rid }
    match o.sendEmail with
    | .ok _ => (s1, record, 1)
    | .error e =>
      let warn := "⚠️ Research complete but error in final steps: " ++ e
      ({ s1 with current_status := some warn }, record, 1)

/-- The section-splitting loop of `_analyze_content` (lines 264-273):
split on "## " and take the tail of the sections that start with the two
headers, stripping the header text. -/
def analysisSections (analysis : String) : String × String :=
  (pySplitOnStr analysis "## ").foldl
    (fun acc sect =>
      if strStartsWith sect "What They Sell" then
        (pyStrip (pyReplace sect "What They Sell" ""), acc.2)
      else if strStartsWith sect "Who They Sell To" then
        (acc.1, pyStrip (pyReplace sect "Who They Sell To" ""))
      else acc)
    ("", "")

/-- Model of `ResearchAgent._analyze_content`: ask the analysis LLM
(oracle), parse the two sections, store them, advance to the follow-up
state and publish exactly once via `_finalize_research`; an LLM exception
yields an error reply with no publish. -/
def analyze_content (o : Oracles) (s : Session) (_content : String) : StepResult :=
  let s0 := { s with current_status := some "🧠 Analyzing website content..." }
  let company := optStr s0.company_name
  match o.llmAnalysis with
  | .error e =>
    { session := { s0 with current_status := some ("❌ Analysis error: " ++ e) },
      reply := .text ("❌ Error analyzing content: " ++ e),
      publishes := 0 }
  | .ok analysis =>
    let ww := analysisSections analysis
    let s1 := { s0 with what_they_sell := some ww.1, who_they_sell_to := some ww.2,
                        agent_state := "answering_followup",
                        current_status := some "✅ Analysis complete" }
    let fin := finalize_research o s1
    { session := fin.1,
      reply := .text ("\n## 📊 Research Complete for " ++ company ++ "\n\n" ++ analysis
        ++ "\n\n---\n\n✅ **Research saved to Airtable and email sent!**\n\nFeel free to ask any follow-up questions about this company, or say \"start over\" to research a new company.\n"),
      publishes := fin.2.2 }

/-- Model of `ResearchAgent._scrape_website`: run the scraper (oracles),
treat a falsy result (None or empty) as failure without touching the
session fields, otherwise store the content and continue into
`_analyze_content`. -/
def scrape_website (o : Oracles) (s : Session) (url : String) : StepResult :=
  let s0 := { s with current_status := some "🕷️ Scraping website content..." }
  match WebScraper.scrape_website o.crawl o.single url 15 with
  | none =>
    { session := { s0 with current_status := some "❌ Scraping failed" },
      reply := .text "❌ I couldn\x27t scrape the website. Please try selecting a different URL.",
      publishes := 0 }
  | some c =>
    if c = "" then
      { session := { s0 with current_status := some "❌ Scraping failed" },
        reply := .text "❌ I couldn\x27t scrape the website. Please try selecting a different URL.",
        publishes := 0 }
    else
      analyze_content o
        { s0 with scraped_content := some c, agent_state := "analyzing_content" } c

/-- Model of `ResearchAgent._handle_url_selection`: extract the first
standalone integer; re-prompt (leaving the session untouched) when there
is none or it is out of range, otherwise confirm the chosen candidate and
continue into `_scrape_website`. -/
def handle_url_selection (o : Oracles) (s : Session) (message : String) : StepResult :=
  match extractFirstNat message with
  | none =>
    { session := s,
      reply := .text "❓ Please provide the number of the URL you want me to use (e.g., \x271\x27, \x272\x27, etc.)",
      publishes := 0 }
  | some selection =>
    if selection < 1 ∨ selection > s.candidate_urls.length then
      { session := s,
        reply := .text ("❌ Please choose a number between 1 and "
          ++ toString s.candidate_urls.length ++ "."),
        publishes := 0 }
    else
      let selected_url := s.candidate_urls.getD (selection - 1) ""
      scrape_website o
        { s with confirmed_url := some selected_url, agent_state := "scraping_website" }
        selected_url

/-- Model of `ResearchAgent._search_company_urls`: query the search
provider (oracle), collect the links of the first five organic results,
and either report an error, report that nothing was found (leaving the
state unchanged), or store the candidates and move to the URL-selection
state. -/
def search_company_urls (o : Oracles) (s : Session) (company : String) : StepResult :=
  let s0 := { s with current_status := some "🔍 Searching for company website..." }
  match o.search with
  | .error e =>
    { session := { s0 with current_status := some ("❌ Search failed: " ++ e) },
      reply := .text ("❌ I encountered an error searching for " ++ company ++ ": " ++ e),
      publishes := 0 }
  | .ok organic =>
    let urls := (organic.take 5).filterMap (fun it => it.link)
    if urls.isEmpty then
      { session := { s0 with current_status := some "❌ No URLs found" },
        reply := .text ("❌ I couldn\x27t find any websites for " ++ company
          ++ ". Please try a different company name."),
        publishes := 0 }
    else
      { session := { s0 with candidate_urls := urls,
                             agent_state := "awaiting_url_selection",
                             current_status := some "✅ Found candidate URLs" },
        reply := .withUrls ("🔍 I found these potential websites for **" ++ company
          ++ "**. Please select the correct one by typing its number:") urls,
        publishes := 0 }

/-- Model of `ResearchAgent._handle_company_name`. -/
def handle_company_name (s : Session) (company : String) : StepResult :=
  { session := { s with company_name := some company, agent_state := "awaiting_email" },
    reply := .text ("🏢 Great! I\x27ll research **" ++ company
      ++ "**.\n\nNow, what email address should I send the research summary to?"),
    publishes := 0 }

/-- Model of `ResearchAgent._handle_email_address`: store the email, move
to the searching state and search with the stored company name (None
renders as "None" in the query and messages). -/
def handle_email_address (o : Oracles) (s : Session) (email : String) : StepResult :=
  let s1 := { s with user_email := some email, agent_state := "searching_urls" }
  search_company_urls o s1 (optStr s1.company_name)

/-- Model of `ResearchAgent._handle_initial_request`: with both a truthy
company and a truthy email in the intent, store them and search;
otherwise reply with the usage prompt. -/
def handle_initial_request (o : Oracles) (s : Session) (_message : String)
    (intent : Intent) : StepResult :=
  if pyTruthyOpt intent.company && pyTruthyOpt intent.email then
    let s1 := { s with company_name := intent.company, user_email := intent.email,
                       agent_state := "searching_urls" }
    search_company_urls o s1 (intent.company.getD "")
  else
    { session := s,
      reply := .text "👋 Hello! To get started, please tell me:\n1. Which company you\x27d like me to research\n2. Your email address for the final summary\n\nFor example: \x27Research Apple Inc, send results to john@example.com\x27",
      publishes := 0 }

/-- Model of `ResearchAgent._handle_followup_question`: without scraped
content in the session, ask for a new research session; otherwise ask the
follow-up LLM (oracle) and return its answer or an error message.  No
session field changes and no publish call occurs. -/
def handle_followup_question (o : Oracles) (s : Session) (_question : String) : StepResult :=
  if !pyTruthyOpt s.scraped_content then
    { session := s,
      reply := .text "❓ I don\x27t have any research data to answer questions about. Please start a new research session.",
      publishes := 0 }
  else
    match o.followup with
    | .ok answer =>
      { session := s,
        reply := .text ("💡 **Answer about " ++ optStr s.company_name ++ ":**\n\n" ++ answer),
        publishes := 0 }
    | .error e =>
      { session := s,
        reply := .text ("❌ Error answering your question: " ++ e),
        publishes := 0 }

/-- Model of `ResearchAgent._reset_session`: delegate to
`session_helpers.reset_session` and confirm. -/
def reset_step (s : Session) : StepResult :=
  { session := SessionHelpers.reset_session s,
    reply := .text "🔄 Session reset! What company would you like me to research, and what email should I send the summary to?",
    publishes := 0 }

/-- Model of `ResearchAgent._handle_unclear_input`: a state-specific
re-prompt, leaving the session untouched. -/
def handle_unclear_input (s : Session) (_message : String) : StepResult :=
  let msg :=
    if s.agent_state = "awaiting_email" then
      "📧 I need your email address to send you the research summary. Please provide a valid email address."
    else if s.agent_state = "awaiting_url_selection" then
      "🔢 Please select a URL by typing its number (1, 2, 3, etc.)"
    else if s.agent_state = "awaiting_company" then
      "🏢 Please tell me which company you\x27d like me to research."
    else
      "❓ I\x27m not sure what you mean. Could you please clarify? You can also say \x27start over\x27 to begin a new research session."
  { session := s, reply := .text msg, publishes := 0 }

/-- Model of `ResearchAgent._analyze_user_intent`: the LLM result when
the call and the JSON parse succeed, the rule-based fallback otherwise. -/
def analyze_user_intent (o : Oracles) (s : Session) (message : String) : Intent :=
  match o.intentLLM with
  | some i => i
  | none => fallback_intent_analysis message s.agent_state

/-- The top-level except branch of `process_message` reached when a
handler reads a missing intent key (KeyError). -/
def key_error_step (s : Session) (key : String) : StepResult :=
  { session := { s with current_status := some ("❌ Error: \x27" ++ key ++ "\x27") },
    reply := .text ("❌ I encountered an error: \x27" ++ key ++ "\x27. Please try again."),
    publishes := 0 }

/-- The intent routing of `ResearchAgent.process_message` (lines 50-63):
dispatch on the action of the analyzed intent. -/
def dispatch_intent (o : Oracles) (s : Session) (message : String)
    (intent : Intent) : StepResult :=
  if intent.action = "provide_company_and_email" then
    handle_initial_request o s message intent
  else if intent.action = "provide_company" then
    match intent.company with
    | some c => handle_company_name s c
    | none => key_error_step s "company"
  else if intent.action = "provide_email" then
    match intent.email with
    | some e => handle_email_address o s e
    | none => key_error_step s "email"
  else if intent.action = "select_url" then
    handle_url_selection o s message
  else if intent.action = "ask_followup" then
    handle_followup_question o s message
  else if intent.action = "start_over" then
    reset_step s
  else
    handle_unclear_input s message

/-- Model of `ResearchAgent.process_message`: determine the intent and
dispatch to the matching handler. -/
def process_message (o : Oracles) (s : Session) (message : String) : StepResult :=
  dispatch_intent o s message (analyze_user_intent o s message)

end ResearchAgent

/-! ## Definitions used by the verification statements -/

/-- The candidate-list invariant of the conversation state machine: with
no candidate URLs stored, the session is not in the URL-selection state. -/
def urlConfInvariant (s : SessionHelpers.Session) : Prop :=
  s.candidate_urls = [] → s.agent_state ≠ "awaiting_url_selection"

instance (s : SessionHelpers.Session) : Decidable (urlConfInvariant s) := by
  unfold urlConfInvariant; infer_instance

/-- The characters of an email of shape local@domain.tld. -/
def emailChars (l d t : List Char) : List Char :=
  l ++ '@' :: d ++ '.' :: t

/-- A session mid-research, used to exercise reset_session: the chat log
holds the greeting and two conversation turns, and the research fields
are populated. -/
def c2Session : SessionHelpers.Session :=
  { chat_history :=
      [{ role := "assistant", content := SessionHelpers.greetingText },
       { role := "user", content := "Research Acme, send results to a@b.com" },
       { role := "assistant", content := "working on it" }],
    company_name := some "Acme", user_email := some "a@b.com",
    confirmed_url := some "https://acme.com", candidate_urls := ["https://acme.com"],
    scraped_content := some "some scraped text", what_they_sell := some "widgets",
    who_they_sell_to := some "shops", airtable_record_id := some "rec1",
    agent_state := "answering_followup", current_status := some "✅ Analysis complete" }

/-- A session that has just confirmed a URL and is about to scrape. -/
def c3Session : SessionHelpers.Session :=
  { chat_history := [{ role := "assistant", content := SessionHelpers.greetingText }],
    company_name := some "Acme", user_email := some "a@b.com",
    confirmed_url := some "https://a.com", candidate_urls := ["https://a.com"],
    agent_state := "scraping_website" }

/-- Oracles whose single-page scrape yields eleven characters of
markdown, so that the combined scraped content is exactly 40 characters
long, and whose analysis call fails. -/
def c3Oracles : ResearchAgent.Oracles :=
  { single := some "elevenchars", llmAnalysis := .error "model unavailable" }

/-- A session whose scraped content contains characters outside ASCII. -/
def c9Session : SessionHelpers.Session :=
  { chat_history := [{ role := "assistant", content := SessionHelpers.greetingText }],
    company_name := some "Café", user_email := some "a@b.com",
    scraped_content := some "Café — naïve résumé ✓",
    what_they_sell := some "w", who_they_sell_to := some "t",
    agent_state := "answering_followup" }

/-- A session presenting three candidate URLs. -/
def c4Session : SessionHelpers.Session :=
  { chat_history := [{ role := "assistant", content := SessionHelpers.greetingText }],
    company_name := some "Acme", user_email := some "a@b.com",
    candidate_urls := ["https://u1.com", "https://u2.com", "https://u3.com"],
    agent_state := "awaiting_url_selection" }

/-! ## Shared helper lemmas -/

theorem toList_asString (l : List Char) : l.asString.toList = l := rfl

theorem length_asString (l : List Char) : l.asString.length = l.length := rfl

theorem pyOr_ne_empty (x d : String) (hd : d ≠ "") : pyOr x d ≠ "" := by
  unfold pyOr; split
  · exact hd
  · assumption

theorem finalize_research_publishes (o : ResearchAgent.Oracles) (s : SessionHelpers.Session) :
    (ResearchAgent.finalize_research o s).2.2 = 1 := by
  unfold ResearchAgent.finalize_research
  rcases o.createRecord with e | r
  · rfl
  · rcases r with _ | rid
    · rfl
    · rcases h : o.sendEmail with e | u <;> simp [h]

/-- C1: a completed analysis triggers exactly one Result Sink publish
call (the `_finalize_research` call of `_analyze_content`), a failed
analysis none, and `_handle_followup_question` never performs a publish
call, whatever the session and oracles are. -/
theorem claimC1_publish_once :
    (∀ (o : ResearchAgent.Oracles) (s : SessionHelpers.Session) (q : String),
      (ResearchAgent.handle_followup_question o s q).publishes = 0) ∧
    (∀ (o : ResearchAgent.Oracles) (s : SessionHelpers.Session) (c : String),
      (ResearchAgent.analyze_content o s c).publishes =
        (match o.llmAnalysis with
         | .ok _ => 1
         | .error _ => 0)) := by
  constructor
  · intro o s q
    unfold ResearchAgent.handle_followup_question
    split
    · rfl
    · rcases h : o.followup with e | a <;> simp [h]
  · intro o s c
    unfold ResearchAgent.analyze_content
    rcases h : o.llmAnalysis with e | a <;> simp [h, finalize_research_publishes]

/-- C2 (against the claim, see the source comment at
`session_helpers.py` line 57): saying start over does clear every
research field and return the state machine to its initial state, but
the message log is NOT kept unchanged — reset_session replaces the chat
history with a fresh single greeting entry. -/
theorem claimC2_reset_replaces_chat_log :
    (SessionHelpers.reset_session c2Session).company_name = none ∧
    (SessionHelpers.reset_session c2Session).user_email = none ∧
    (SessionHelpers.reset_session c2Session).confirmed_url = none ∧
    (SessionHelpers.reset_session c2Session).candidate_urls = [] ∧
    (SessionHelpers.reset_session c2Session).scraped_content = none ∧
    (SessionHelpers.reset_session c2Session).what_they_sell = none ∧
    (SessionHelpers.reset_session c2Session).who_they_sell_to = none ∧
    (SessionHelpers.reset_session c2Session).airtable_record_id = none ∧
    (SessionHelpers.reset_session c2Session).agent_state = "initial" ∧
    (SessionHelpers.reset_session c2Session).chat_history ≠ c2Session.chat_history := by
  refine ⟨rfl, rfl, rfl, rfl, rfl, rfl, rfl, rfl, rfl, ?_⟩
  intro h
  have hlen := congrArg List.length h
  simp [SessionHelpers.reset_session, c2Session] at hlen

/-- C8 counterexample: two identical organic results pass through
`SearchAPI.search` untouched — the returned sequence holds the same URL
twice, so the output is not deduplicated (under any normalization). -/
theorem claimC8_counterexample :
    ((SearchAPI.search
        (.ok [{ link := some "https://a.com", title := some "A", snippet := some "s" },
              { link := some "https://a.com", title := some "A", snippet := some "s" }])
        "acme official website" 10).map SearchAPI.SearchResult.url
      = ["https://a.com", "https://a.com"]) ∧
    ¬ ((SearchAPI.search
        (.ok [{ link := some "https://a.com", title := some "A", snippet := some "s" },
              { link := some "https://a.com", title := some "A", snippet := some "s" }])
        "acme official website" 10).map SearchAPI.SearchResult.url).Nodup := by
  constructor
  · rfl
  · decide

/-- C8 amended: `SearchAPI.search` returns at most num_results results,
in provider rank order (the k-th result is converted from the k-th
organic item), and returns the empty list on a transport error, timeout
or provider exception and on zero organic results; no deduplication is
performed. -/
theorem claimC8_amended :
    (∀ (e q : String) (n : Nat), SearchAPI.search (.error e) q n = []) ∧
    (∀ (q : String) (n : Nat), SearchAPI.search (.ok []) q n = []) ∧
    (∀ (d : List SearchAPI.SerperItem) (q : String) (n : Nat),
      (SearchAPI.search (.ok d) q n).length ≤ n) ∧
    (∀ (d : List SearchAPI.SerperItem) (q : String) (n k : Nat),
      (SearchAPI.search (.ok d) q n).get? k =
        ((d.take n).get? k).map (fun it =>
          { url := it.link.getD "", title := it.title.getD "",
            snippet := it.snippet.getD "" })) := by
  refine ⟨fun e q n => rfl, ?_, ?_, ?_⟩
  · intro q n
    simp [SearchAPI.search, SearchAPI.search_serper]
  · intro d q n
    simp only [SearchAPI.search, SearchAPI.search_serper]
    split
    · simp
    · simp only [List.length_map, List.length_take]
      exact min_le_left n d.length
  · intro d q n k
    simp only [SearchAPI.search, SearchAPI.search_serper]
    split
    · next hempty =>
      have htake : d.take n = [] := by
        rw [List.isEmpty_iff, List.map_eq_nil] at hempty
        exact hempty
      simp [htake]
    · exact List.get?_map _ _ _

/-- C9 counterexample: the record built by `_finalize_research` carries
the scraped content verbatim — a content with characters outside ASCII
reaches the sink unstripped and undecomposed, and the webhook payload
preparation forwards the field unchanged as well. -/
theorem claimC9_counterexample :
    (ResearchAgent.sink_record c9Session).scraped_content = "Café — naïve résumé ✓" ∧
    ((ResearchAgent.sink_record c9Session).scraped_content.toList.all
      (fun c => c.toNat ≤ 127)) = false ∧
    N8NWebhook.prepare_payload [("ScrapedContent", "Café — naïve résumé ✓")] "ts"
      = [("ScrapedContent", "Café — naïve résumé ✓"), ("timestamp", "ts")] := by
  refine ⟨by decide, by decide, rfl⟩

/-- C9 amended: before transmission the scraped content is truncated to
at most 50000 characters (the slice in `_finalize_research`), but no
normalization is applied — every transmitted character occurs verbatim
in the stored scraped content, non-ASCII included. -/
theorem claimC9_amended (s : SessionHelpers.Session) :
    (ResearchAgent.sink_record s).scraped_content.length ≤ 50000 ∧
    (∀ c, c ∈ (ResearchAgent.sink_record s).scraped_content.toList →
      c ∈ (s.scraped_content.getD "").toList) := by
  unfold ResearchAgent.sink_record pyTake
  constructor
  · rw [length_asString]
    simp only [List.length_take]
    exact min_le_left _ _
  · intro c hc
    rw [toList_asString] at hc
    exact List.take_subset _ _ hc

/-- C9 amended, witness at the concrete session: the truncated record
content stays within the limit and its first character comes from the
stored content. -/
theorem claimC9_amended_witness :
    (ResearchAgent.sink_record c9Session).scraped_content.length ≤ 50000 ∧
    'C' ∈ (c9Session.scraped_content.getD "").toList :=
  ⟨(claimC9_amended c9Session).1, (claimC9_amended c9Session).2 'C' (by decide)⟩

/-- C10: the rule-based fallback intent analyzer only ever produces one
of the four actions unclear, provide_email, select_url and
provide_company — never start_over or ask_followup — and any message of
at most five whitespace-separated tokens without an email match is
classified as provide_company with the entire stripped message as the
company name. -/
theorem claimC10_fallback_action_set (msg st : String) :
    ((ResearchAgent.fallback_intent_analysis msg st).action = "unclear" ∨
     (ResearchAgent.fallback_intent_analysis msg st).action = "provide_email" ∨
     (ResearchAgent.fallback_intent_analysis msg st).action = "select_url" ∨
     (ResearchAgent.fallback_intent_analysis msg st).action = "provide_company") ∧
    (emailSearch msg = none → (pySplitWS msg).length ≤ 5 →
      (ResearchAgent.fallback_intent_analysis msg st).action = "provide_company" ∧
      (ResearchAgent.fallback_intent_analysis msg st).company = some (pyStrip msg)) := by
  constructor
  · rcases he : emailSearch msg with _ | e <;>
      rcases hn : extractFirstNat msg with _ | n <;>
      by_cases hst : st = "awaiting_url_selection" <;>
      simp [ResearchAgent.fallback_intent_analysis, he, hn, hst] <;>
      split <;> simp
  · intro hmail hlen
    have hd : decide ((pySplitWS msg).length ≤ 5) = true := decide_eq_true hlen
    rcases hn : extractFirstNat msg with _ | n <;>
      by_cases hst : st = "awaiting_url_selection" <;>
      simp [ResearchAgent.fallback_intent_analysis, hmail, hn, hst, pyTruthyOpt, hd]

/-- C10 witness: the message start over (two tokens, no email) is
classified as provide_company with itself as company name, in any state. -/
theorem claimC10_witness :
    emailSearch "start over" = none ∧
    (pySplitWS "start over").length ≤ 5 ∧
    (ResearchAgent.fallback_intent_analysis "start over" "answering_followup").action
      = "provide_company" ∧
    (ResearchAgent.fallback_intent_analysis "start over" "answering_followup").company
      = some "start over" := by
  have h := (claimC10_fallback_action_set "start over" "answering_followup").2
    (by decide) (by decide)
  exact ⟨by decide, by decide, h.1, h.2.trans (by decide)⟩

/-- C6 counterexample: a model response that is valid JSON but carries
none of the three fields — the empty object — is returned by
`analyze_company_content` as-is, so the result is missing all three
fields and no sentinel is substituted. -/
theorem claimC6_counterexample :
    (jsonLoads "\x7b\x7d").isSome = true ∧
    LLMClient.hasAllThreeFields (LLMClient.analyze_company_content "\x7b\x7d") = false := by
  exact ⟨by decide, by decide⟩

/-- The fallback text parser always yields an object with all three
fields populated: each field is either a stripped nonempty accumulation
or its fixed sentinel. -/
theorem parse_text_analysis_populated (t : String) :
    LLMClient.hasAllThreeFields (LLMClient.parse_text_analysis t) = true := by
  have h1 : ∀ x : String, pyOr x LLMClient.sentinelSell ≠ "" :=
    fun x => pyOr_ne_empty x _ (by decide)
  have h2 : ∀ x : String, pyOr x LLMClient.sentinelTarget ≠ "" :=
    fun x => pyOr_ne_empty x _ (by decide)
  have h3 : ∀ x : String, pyOr x LLMClient.sentinelSummary ≠ "" :=
    fun x => pyOr_ne_empty x _ (by decide)
  unfold LLMClient.parse_text_analysis
  generalize (pySplitChar t '\n').foldl LLMClient.parseLineStep (none, "", "", "") = st
  simp [LLMClient.mkAnalysisObj, LLMClient.hasAllThreeFields, LLMClient.jGet,
        LLMClient.populatedStr, h1, h2, h3]

/-- C6 amended: whenever the model response fails to parse as JSON, the
fallback text parser produces a record with all three fields present and
populated (sentinels included), so the operation never fails and the
field-presence of the result does not depend on the response; a response
that does parse as JSON, however, is returned as-is with no guarantee of
field presence.  A response of plain prose with no recognizable headers
yields exactly the three sentinels. -/
theorem claimC6_amended (r : String) (h : jsonLoads r = none) :
    LLMClient.hasAllThreeFields (LLMClient.analyze_company_content r) = true ∧
    LLMClient.analyze_company_content "The model refused to answer in any structured form."
      = JValue.jobj [("what_they_sell", .jstr LLMClient.sentinelSell),
                     ("who_they_target", .jstr LLMClient.sentinelTarget),
                     ("condensed_summary", .jstr LLMClient.sentinelSummary)] := by
  constructor
  · unfold LLMClient.analyze_company_content
    rw [h]
    exact parse_text_analysis_populated r
  · rfl

/-- C6 amended, witness: a plain-prose response is not JSON, and the
fallback indeed produces the populated record there. -/
theorem claimC6_amended_witness :
    jsonLoads "plain prose, nothing structured" = none ∧
    LLMClient.hasAllThreeFields
      (LLMClient.analyze_company_content "plain prose, nothing structured") = true := by
  have h : jsonLoads "plain prose, nothing structured" = none := rfl
  exact ⟨h, (claimC6_amended "plain prose, nothing structured" h).1⟩

/-- C3 counterexample: a scrape whose combined content is exactly 40
characters long is NOT treated as a failure — `_scrape_website` stores
the content and advances to analysis, and the session is not left in the
URL-selection state. -/
theorem claimC3_counterexample :
    ((ResearchAgent.scrape_website c3Oracles c3Session "https://a.com").session.scraped_content.getD "").length = 40 ∧
    (ResearchAgent.scrape_website c3Oracles c3Session "https://a.com").session.agent_state = "analyzing_content" ∧
    (ResearchAgent.scrape_website c3Oracles c3Session "https://a.com").session.agent_state ≠ "awaiting_url_selection" := by
  exact ⟨by decide, by decide, by decide⟩

/-- C3 amended: only an empty scrape result (the scraper returning None,
or empty content) is treated as a failure — the reply then asks for a
different URL and the agent state and research fields stay unchanged
(the state remains the scraping state, not the URL-selection state);
any non-empty scraped content, of whatever length, is stored and
analysis proceeds immediately. -/
theorem claimC3_amended (o : ResearchAgent.Oracles) (s : SessionHelpers.Session) (url : String) :
    (WebScraper.scrape_website o.crawl o.single url 15 = none →
      (ResearchAgent.scrape_website o s url).session.agent_state = s.agent_state ∧
      (ResearchAgent.scrape_website o s url).session.scraped_content = s.scraped_content ∧
      (ResearchAgent.scrape_website o s url).session.candidate_urls = s.candidate_urls ∧
      (ResearchAgent.scrape_website o s url).reply =
        .text "❌ I couldn\x27t scrape the website. Please try selecting a different URL." ∧
      (ResearchAgent.scrape_website o s url).publishes = 0) ∧
    (∀ c, WebScraper.scrape_website o.crawl o.single url 15 = some c → c ≠ "" →
      ResearchAgent.scrape_website o s url =
        ResearchAgent.analyze_content o
          { s with current_status := some "🕷️ Scraping website content...",
                   scraped_content := some c, agent_state := "analyzing_content" } c) := by
  constructor
  · intro h
    unfold ResearchAgent.scrape_website
    rw [h]
    exact ⟨rfl, rfl, rfl, rfl, rfl⟩
  · intro c h hne
    unfold ResearchAgent.scrape_website
    rw [h]
    simp [hne]

/-- C3 amended, witness: with the scraper delivering nothing, the state
and fields are untouched; with it delivering the 40-character content,
the handler continues into analysis. -/
theorem claimC3_amended_witness :
    ((ResearchAgent.scrape_website { } c3Session "https://a.com").session.agent_state
        = c3Session.agent_state ∧
      (ResearchAgent.scrape_website { } c3Session "https://a.com").session.scraped_content
        = c3Session.scraped_content) ∧
    ResearchAgent.scrape_website c3Oracles c3Session "https://a.com" =
      ResearchAgent.analyze_content c3Oracles
        { c3Session with
            current_status := some "🕷️ Scraping website content...",
            scraped_content := some "=== PAGE: https://a.com ===\n\nelevenchars",
            agent_state := "analyzing_content" }
        "=== PAGE: https://a.com ===\n\nelevenchars" := by
  have h1 := (claimC3_amended { } c3Session "https://a.com").1 rfl
  have h2 := (claimC3_amended c3Oracles c3Session "https://a.com").2
    "=== PAGE: https://a.com ===\n\nelevenchars" rfl (by decide)
  exact ⟨⟨h1.1, h1.2.1⟩, h2⟩

theorem finalize_research_confirmed_url (o : ResearchAgent.Oracles)
    (s : SessionHelpers.Session) :
    (ResearchAgent.finalize_research o s).1.confirmed_url = s.confirmed_url := by
  unfold ResearchAgent.finalize_research
  rcases o.createRecord with e | r
  · rfl
  · rcases r with _ | rid
    · rfl
    · rcases h : o.sendEmail with e | u <;> simp [h]

theorem analyze_content_confirmed_url (o : ResearchAgent.Oracles)
    (s : SessionHelpers.Session) (c : String) :
    (ResearchAgent.analyze_content o s c).session.confirmed_url = s.confirmed_url := by
  unfold ResearchAgent.analyze_content
  rcases h : o.llmAnalysis with e | a <;> simp [h, finalize_research_confirmed_url]

theorem scrape_website_confirmed_url (o : ResearchAgent.Oracles)
    (s : SessionHelpers.Session) (url : String) :
    (ResearchAgent.scrape_website o s url).session.confirmed_url = s.confirmed_url := by
  unfold ResearchAgent.scrape_website
  rcases WebScraper.scrape_website o.crawl o.single url 15 with _ | c
  · rfl
  · by_cases hc : c = "" <;> simp [hc, analyze_content_confirmed_url]

/-- C4: during URL selection, a first standalone integer n within
1..len(candidate_urls) confirms candidate n-1 (stored in confirmed_url,
also in the final session) and advances into the scraping step; with no
integer in the message, or an out-of-range one, the handler re-prompts
and returns the session completely unmodified. -/
theorem claimC4_url_selection (o : ResearchAgent.Oracles) (s : SessionHelpers.Session)
    (msg : String) :
    (∀ n, extractFirstNat msg = some n → 1 ≤ n → n ≤ s.candidate_urls.length →
      ResearchAgent.handle_url_selection o s msg =
        ResearchAgent.scrape_website o
          { s with confirmed_url := some (s.candidate_urls.getD (n - 1) ""),
                   agent_state := "scraping_website" }
          (s.candidate_urls.getD (n - 1) "") ∧
      (ResearchAgent.handle_url_selection o s msg).session.confirmed_url
        = some (s.candidate_urls.getD (n - 1) "")) ∧
    (extractFirstNat msg = none →
      (ResearchAgent.handle_url_selection o s msg).session = s ∧
      (ResearchAgent.handle_url_selection o s msg).reply =
        .text "❓ Please provide the number of the URL you want me to use (e.g., \x271\x27, \x272\x27, etc.)" ∧
      (ResearchAgent.handle_url_selection o s msg).publishes = 0) ∧
    (∀ n, extractFirstNat msg = some n → (n < 1 ∨ n > s.candidate_urls.length) →
      (ResearchAgent.handle_url_selection o s msg).session = s ∧
      (ResearchAgent.handle_url_selection o s msg).reply =
        .text ("❌ Please choose a number between 1 and "
          ++ toString s.candidate_urls.length ++ ".") ∧
      (ResearchAgent.handle_url_selection o s msg).publishes = 0) := by
  refine ⟨?_, ?_, ?_⟩
  · intro n hn h1 hlen
    have heq : ResearchAgent.handle_url_selection o s msg =
        ResearchAgent.scrape_website o
          { s with confirmed_url := some (s.candidate_urls.getD (n - 1) ""),
                   agent_state := "scraping_website" }
          (s.candidate_urls.getD (n - 1) "") := by
      unfold ResearchAgent.handle_url_selection
      rw [hn]
      exact if_neg (by omega : ¬ (n < 1 ∨ n > s.candidate_urls.length))
    refine ⟨heq, ?_⟩
    rw [heq, scrape_website_confirmed_url]
  · intro hn
    unfold ResearchAgent.handle_url_selection
    rw [hn]
    exact ⟨rfl, rfl, rfl⟩
  · intro n hn hout
    have heq : ResearchAgent.handle_url_selection o s msg =
        { session := s,
          reply := ResearchAgent.Reply.text ("❌ Please choose a number between 1 and "
            ++ toString s.candidate_urls.length ++ "."),
          publishes := 0 } := by
      unfold ResearchAgent.handle_url_selection
      rw [hn]
      exact if_pos hout
    rw [heq]
    exact ⟨rfl, rfl, rfl⟩

/-- C4 witness: with candidates u1, u2, u3, the reply 2 confirms u2 and
moves into scraping, and the reply hello or 7 leaves the session
untouched with a re-prompt. -/
theorem claimC4_url_selection_witness :
    (ResearchAgent.handle_url_selection { } c4Session "2").session.confirmed_url
      = some "https://u2.com" ∧
    (ResearchAgent.handle_url_selection { } c4Session "hello").session = c4Session ∧
    (ResearchAgent.handle_url_selection { } c4Session "7").session = c4Session ∧
    (ResearchAgent.handle_url_selection { } c4Session "7").reply =
      .text "❌ Please choose a number between 1 and 3." := by
  have h2 := ((claimC4_url_selection { } c4Session "2").1 2 (by decide) (by decide)
    (by decide)).2
  have hh := (claimC4_url_selection { } c4Session "hello").2.1 (by decide)
  have h7 := (claimC4_url_selection { } c4Session "7").2.2 7 (by decide) (by decide)
  refine ⟨?_, hh.1, h7.1, h7.2.1.trans (by decide)⟩
  rw [h2]
  decide

theorem finalize_research_fields (o : ResearchAgent.Oracles) (s : SessionHelpers.Session) :
    (ResearchAgent.finalize_research o s).1.candidate_urls = s.candidate_urls ∧
    (ResearchAgent.finalize_research o s).1.agent_state = s.agent_state := by
  unfold ResearchAgent.finalize_research
  rcases o.createRecord with e | r
  · exact ⟨rfl, rfl⟩
  · rcases r with _ | rid
    · exact ⟨rfl, rfl⟩
    · rcases h : o.sendEmail with e | u <;> simp [h]

theorem inv_analyze_content (o : ResearchAgent.Oracles) (s : SessionHelpers.Session)
    (c : String) (h : urlConfInvariant s) :
    urlConfInvariant (ResearchAgent.analyze_content o s c).session := by
  unfold ResearchAgent.analyze_content
  rcases ha : o.llmAnalysis with e | a
  · simp only [ha]
    exact h
  · simp only [ha]
    intro _
    rw [(finalize_research_fields o _).2]
    simp

theorem inv_scrape_website (o : ResearchAgent.Oracles) (s : SessionHelpers.Session)
    (url : String) (h : urlConfInvariant s) :
    urlConfInvariant (ResearchAgent.scrape_website o s url).session := by
  unfold ResearchAgent.scrape_website
  rcases WebScraper.scrape_website o.crawl o.single url 15 with _ | c
  · exact h
  · show urlConfInvariant
      (if c = "" then
        { session := { s with current_status := some "❌ Scraping failed" },
          reply := ResearchAgent.Reply.text
            "❌ I couldn\x27t scrape the website. Please try selecting a different URL.",
          publishes := 0 }
      else
        ResearchAgent.analyze_content o
          { s with current_status := some "🕷️ Scraping website content...",
                   scraped_content := some c, agent_state := "analyzing_content" }
          c).session
    by_cases hc : c = ""
    · rw [if_pos hc]
      exact h
    · rw [if_neg hc]
      exact inv_analyze_content o _ c (fun _ => by simp)

theorem inv_search_company_urls (o : ResearchAgent.Oracles) (s : SessionHelpers.Session)
    (company : String) (h : urlConfInvariant s) :
    urlConfInvariant (ResearchAgent.search_company_urls o s company).session := by
  unfold ResearchAgent.search_company_urls
  rcases hs : o.search with e | organic
  · simp only [hs]
    exact h
  · simp only [hs]
    split
    · exact h
    · next hne =>
      intro hc
      exact absurd hc (by simpa [List.isEmpty_iff] using hne)

theorem inv_handle_url_selection (o : ResearchAgent.Oracles) (s : SessionHelpers.Session)
    (m : String) (h : urlConfInvariant s) :
    urlConfInvariant (ResearchAgent.handle_url_selection o s m).session := by
  unfold ResearchAgent.handle_url_selection
  rcases extractFirstNat m with _ | n
  · exact h
  · show urlConfInvariant
      (if n < 1 ∨ n > s.candidate_urls.length then
        { session := s,
          reply := ResearchAgent.Reply.text ("❌ Please choose a number between 1 and "
            ++ toString s.candidate_urls.length ++ "."),
          publishes := 0 }
      else
        ResearchAgent.scrape_website o
          { s with confirmed_url := some (s.candidate_urls.getD (n - 1) ""),
                   agent_state := "scraping_website" }
          (s.candidate_urls.getD (n - 1) "")).session
    by_cases hc : n < 1 ∨ n > s.candidate_urls.length
    · rw [if_pos hc]
      exact h
    · rw [if_neg hc]
      exact inv_scrape_website o _ _ (fun _ => by simp)

theorem inv_handle_followup (o : ResearchAgent.Oracles) (s : SessionHelpers.Session)
    (m : String) (h : urlConfInvariant s) :
    urlConfInvariant (ResearchAgent.handle_followup_question o s m).session := by
  unfold ResearchAgent.handle_followup_question
  split
  · exact h
  · rcases hf : o.followup with e | a <;> simp only [hf] <;> exact h

/-- C5: the URL-confirmation state is only ever reachable with a
non-empty candidate list — the invariant holds initially and is
preserved by every processed message, whatever the oracles do; and when
a search yields zero URLs the machine does not transition into URL
selection: state and candidate list stay unchanged, and the reply asks
for a different company name, so the session stays re-searchable. -/
theorem claimC5_candidate_invariant :
    urlConfInvariant SessionHelpers.init_session ∧
    (∀ (o : ResearchAgent.Oracles) (s : SessionHelpers.Session) (m : String),
      urlConfInvariant s →
      urlConfInvariant (ResearchAgent.process_message o s m).session) ∧
    (∀ (o : ResearchAgent.Oracles) (s : SessionHelpers.Session) (company : String)
      (organic : List SearchAPI.SerperItem), o.search = .ok organic →
      (organic.take 5).filterMap (fun it => it.link) = [] →
      (ResearchAgent.search_company_urls o s company).session.agent_state = s.agent_state ∧
      (ResearchAgent.search_company_urls o s company).session.candidate_urls
        = s.candidate_urls ∧
      (ResearchAgent.search_company_urls o s company).reply =
        .text ("❌ I couldn\x27t find any websites for " ++ company
          ++ ". Please try a different company name.")) := by
  refine ⟨by decide, ?_, ?_⟩
  · intro o s m h
    unfold ResearchAgent.process_message ResearchAgent.dispatch_intent
    generalize ResearchAgent.analyze_user_intent o s m = it
    by_cases h1 : it.action = "provide_company_and_email"
    · rw [if_pos h1]
      unfold ResearchAgent.handle_initial_request
      split
      · exact inv_search_company_urls o _ _ (fun _ => by simp)
      · exact h
    · rw [if_neg h1]
      by_cases h2 : it.action = "provide_company"
      · rw [if_pos h2]
        rcases it.company with _ | c
        · exact h
        · exact fun _ => by simp [ResearchAgent.handle_company_name]
      · rw [if_neg h2]
        by_cases h3 : it.action = "provide_email"
        · rw [if_pos h3]
          rcases it.email with _ | e
          · exact h
          · exact inv_search_company_urls o _ _ (fun _ => by simp)
        · rw [if_neg h3]
          by_cases h4 : it.action = "select_url"
          · rw [if_pos h4]
            exact inv_handle_url_selection o s m h
          · rw [if_neg h4]
            by_cases h5 : it.action = "ask_followup"
            · rw [if_pos h5]
              exact inv_handle_followup o s m h
            · rw [if_neg h5]
              by_cases h6 : it.action = "start_over"
              · rw [if_pos h6]
                exact fun _ => by simp [ResearchAgent.reset_step, SessionHelpers.reset_session]
              · rw [if_neg h6]
                exact h
  · intro o s company organic hs hurls
    unfold ResearchAgent.search_company_urls
    rw [hs]
    simp only [hurls]
    exact ⟨rfl, rfl, rfl⟩

/-- C5 witness: the invariant holds after processing a message on the
fresh session, and a search with zero organic results leaves the fresh
session in its state with the no-website reply. -/
theorem claimC5_candidate_invariant_witness :
    urlConfInvariant
      (ResearchAgent.process_message { } SessionHelpers.init_session "hello").session ∧
    (ResearchAgent.search_company_urls { search := .ok [] } SessionHelpers.init_session
      "Zzzxcompany123").session.agent_state = SessionHelpers.init_session.agent_state ∧
    (ResearchAgent.search_company_urls { search := .ok [] } SessionHelpers.init_session
      "Zzzxcompany123").reply =
      .text "❌ I couldn\x27t find any websites for Zzzxcompany123. Please try a different company name." := by
  have h1 := claimC5_candidate_invariant.2.1 { } SessionHelpers.init_session "hello"
    (by decide)
  have h3 := claimC5_candidate_invariant.2.2 { search := .ok [] } SessionHelpers.init_session
    "Zzzxcompany123" [] rfl rfl
  exact ⟨h1, h3.1, h3.2.2.trans (by rfl)⟩

/-! ## Lemmas about the email matcher -/

theorem takeWhile_dropWhile_all (p : Char → Bool) :
    ∀ (u v : List Char), (∀ c ∈ u, p c = true) →
    (∀ c, v.head? = some c → p c = false) →
    (u ++ v).takeWhile p = u ∧ (u ++ v).dropWhile p = v := by
  intro u
  induction u with
  | nil =>
    intro v _ hv
    constructor
    · cases v with
      | nil => rfl
      | cons c cs => simp [List.takeWhile_cons, hv c rfl]
    · cases v with
      | nil => rfl
      | cons c cs => simp [List.dropWhile_cons, hv c rfl]
  | cons a u ih =>
    intro v hu hv
    have ha : p a = true := hu a (by simp)
    have h2 := ih v (fun c hc => hu c (by simp [hc])) hv
    constructor
    · simp only [List.cons_append, List.takeWhile_cons, ha, if_true, ite_true]
      rw [h2.1]
    · simp only [List.cons_append, List.dropWhile_cons, ha, if_true, ite_true]
      exact h2.2

theorem dropWhile_stops (p : Char → Bool) :
    ∀ (u v : List Char), (∃ x ∈ u, p x = false) →
    ∃ h t, h ∈ u ∧ p h = false ∧ (u ++ v).dropWhile p = h :: (t ++ v) := by
  intro u
  induction u with
  | nil =>
    intro v hx
    simp at hx
  | cons a u ih =>
    intro v hx
    by_cases ha : p a = true
    · have hx2 : ∃ x ∈ u, p x = false := by
        rcases hx with ⟨x, hxm, hxp⟩
        rcases List.mem_cons.mp hxm with rfl | hm
        · rw [ha] at hxp
          cases hxp
        · exact ⟨x, hm, hxp⟩
      rcases ih v hx2 with ⟨h, t, h1, h2, h3⟩
      refine ⟨h, t, by simp [h1], h2, ?_⟩
      rw [List.cons_append, List.dropWhile_cons, if_pos ha]
      exact h3
    · have ha2 : p a = false := by revert ha; cases p a <;> simp
      refine ⟨a, u, by simp, ha2, ?_⟩
      rw [List.cons_append, List.dropWhile_cons, if_neg (by simp [ha2])]

theorem matchEmailAt_none_of_no_at (prev : Option Char) (u v : List Char)
    (hat : '@' ∉ u) (hnl : ∃ x ∈ u, isLocalChar x = false) :
    matchEmailAt prev (u ++ v) = none := by
  unfold matchEmailAt
  by_cases hb : atBoundary prev (u ++ v).head? = true
  · rw [if_pos hb]
    rcases dropWhile_stops isLocalChar u v hnl with ⟨h, t, hmem, hph, hduv⟩
    have hne : ¬ h = '@' := fun he => hat (he ▸ hmem)
    rcases htw : (u ++ v).takeWhile isLocalChar with _ | ⟨l0, ls⟩
    · rw [hduv]
    · rw [hduv]
      exact if_neg hne
  · rw [if_neg hb]

theorem searchEmailFrom_cons_none {prev : Option Char} {c : Char} {cs : List Char}
    (h : matchEmailAt prev (c :: cs) = none) :
    searchEmailFrom prev (c :: cs) = searchEmailFrom (some c) cs := by
  conv_lhs => rw [searchEmailFrom]
  rw [h]

theorem mem_of_getLast?_eq : ∀ {l : List Char} {a : Char}, l.getLast? = some a → a ∈ l := by
  intro l
  induction l with
  | nil => intro a h; simp at h
  | cons b l ih =>
    intro a h
    rcases l with _ | ⟨c, l2⟩
    · simp at h
      simp [h]
    · rw [List.getLast?_cons_cons] at h
      exact List.mem_cons_of_mem b (ih h)

theorem searchEmailFrom_skip (rest : List Char) :
    ∀ (u : List Char) (prev : Option Char), '@' ∉ u → u.getLast? = some ' ' →
    searchEmailFrom prev (u ++ rest) = searchEmailFrom (some ' ') rest := by
  intro u
  induction u with
  | nil =>
    intro prev _ hlast
    simp at hlast
  | cons a u ih =>
    intro prev hat hlast
    have hmem : ' ' ∈ a :: u := mem_of_getLast?_eq hlast
    have hstep : matchEmailAt prev ((a :: u) ++ rest) = none :=
      matchEmailAt_none_of_no_at prev (a :: u) rest hat ⟨' ', hmem, by decide⟩
    rw [List.cons_append] at hstep ⊢
    rw [searchEmailFrom_cons_none hstep]
    rcases u with _ | ⟨b, u2⟩
    · have haa : a = ' ' := by simpa using hlast
      subst haa
      simp
    · exact ih (some a) (fun hm => hat (List.mem_cons_of_mem a hm))
        (by rw [List.getLast?_cons_cons] at hlast; exact hlast)

theorem isLocalChar_of_alnum {c : Char} (h : c.isAlphanum = true) : isLocalChar c = true := by
  unfold isLocalChar
  simp [h]

theorem isDomChar_of_alnum {c : Char} (h : c.isAlphanum = true) : isDomChar c = true := by
  unfold isDomChar
  simp [h]

theorem isAlphanum_of_alpha {c : Char} (h : c.isAlpha = true) : c.isAlphanum = true := by
  unfold Char.isAlphanum
  simp [h]

theorem isTldChar_of_alpha {c : Char} (h : c.isAlpha = true) : isTldChar c = true := by
  unfold isTldChar
  simp [h]

theorem isWordChar_of_alnum {c : Char} (h : c.isAlphanum = true) : isWordChar c = true := by
  unfold isWordChar
  simp [h]

theorem ne_dot_of_alpha {c : Char} (h : c.isAlpha = true) : ¬ c = '.' := by
  rintro rfl
  revert h
  decide

theorem tryDots_skip (run after : List Char) (base : Nat)
    (hno : ∀ q, ¬ run.get? (base + q + 1) = some '.') :
    ∀ m, tryDots run after (base + m) = tryDots run after base := by
  intro m
  induction m with
  | zero => rfl
  | succ m ih =>
    have he : base + (m + 1) = (base + m) + 1 := by omega
    rw [he, tryDots, if_neg (hno m)]
    exact ih

theorem tryTld_full (t rem : List Char) (h2 : 2 ≤ t.length)
    (hword : isWordOpt (rem.get? t.length) = false)
    (hlast : ∀ c, t.get? (t.length - 1) = some c → isWordChar c = true) :
    tryTld t rem t.length = some t.length := by
  obtain ⟨j, hj⟩ : ∃ j, t.length = j + 1 := ⟨t.length - 1, by omega⟩
  have hb : atBoundary (t.get? j) (rem.get? (j + 1)) = true := by
    cases hg : t.get? j with
    | none =>
      exfalso
      have := List.get?_eq_none.mp hg
      omega
    | some c =>
      have hw : isWordChar c = true := hlast c (by rw [show t.length - 1 = j by omega]; exact hg)
      rw [show j + 1 = t.length from hj.symm]
      unfold atBoundary
      rw [hword]
      simp [isWordOpt, hw]
  rw [hj, tryTld, if_neg (by omega : ¬ j + 1 < 2), if_pos hb]

theorem tryDots_full (d t post : List Char)
    (hd : d ≠ []) (hdc : ∀ c ∈ d, c.isAlphanum = true)
    (ht : 2 ≤ t.length) (htc : ∀ c ∈ t, c.isAlpha = true)
    (hpost : ∀ c, post.head? = some c → isTldChar c = false ∧ isWordChar c = false) :
    tryDots (d ++ '.' :: t) post ((d ++ '.' :: t).length - 1) = some (d.length, t.length) := by
  have hAlen : (d ++ '.' :: t).length - 1 = d.length + t.length := by
    simp [List.length_append]
  rw [hAlen]
  have hno : ∀ q, ¬ (d ++ '.' :: t).get? (d.length + q + 1) = some '.' := by
    intro q hq
    rw [List.get?_append_right (by omega)] at hq
    rw [show d.length + q + 1 - d.length = q + 1 by omega] at hq
    have hq2 : t.get? q = some '.' := by
      simpa using hq
    exact ne_dot_of_alpha (htc '.' (List.get?_mem hq2)) rfl
  rw [tryDots_skip (d ++ '.' :: t) post d.length hno t.length]
  obtain ⟨k, hk⟩ : ∃ k, d.length = k + 1 := by
    rcases d with _ | ⟨d0, ds⟩
    · exact absurd rfl hd
    · exact ⟨ds.length, rfl⟩
  have hdot : (d ++ '.' :: t).get? (k + 1) = some '.' := by
    rw [show k + 1 = d.length from hk.symm]
    rw [List.get?_append_right (by omega)]
    simp
  have hdrop : (d ++ '.' :: t).drop (k + 2) = t := by
    rw [show k + 2 = d.length + 1 from by omega]
    rw [List.drop_append 1]
    rfl
  have htw := takeWhile_dropWhile_all isTldChar t post
    (fun c hc => isTldChar_of_alpha (htc c hc))
    (fun c hc => (hpost c hc).1)
  have hword : isWordOpt ((t ++ post).get? t.length) = false := by
    rw [List.get?_append_right (by omega), Nat.sub_self, List.get?_zero]
    cases hp : post.head? with
    | none => rfl
    | some c =>
      simpa [isWordOpt] using (hpost c hp).2
  have htld := tryTld_full t (t ++ post) ht hword
    (fun c hc => isWordChar_of_alnum (isAlphanum_of_alpha (htc c (List.get?_mem hc))))
  rw [hk, tryDots, if_pos hdot, hdrop, htw.1, htld]

theorem matchEmailAt_email (prev : Option Char) (l d t post : List Char)
    (hprev : isWordOpt prev = false)
    (hl : l ≠ []) (hlc : ∀ c ∈ l, c.isAlphanum = true)
    (hd : d ≠ []) (hdc : ∀ c ∈ d, c.isAlphanum = true)
    (ht : 2 ≤ t.length) (htc : ∀ c ∈ t, c.isAlpha = true)
    (hpost : ∀ c, post.head? = some c →
      isDomChar c = false ∧ isTldChar c = false ∧ isWordChar c = false) :
    matchEmailAt prev (emailChars l d t ++ post) = some (emailChars l d t) := by
  rcases hlshape : l with _ | ⟨l0, ls⟩
  · exact absurd hlshape hl
  subst hlshape
  have hcs : emailChars (l0 :: ls) d t ++ post
      = (l0 :: ls) ++ ('@' :: ((d ++ '.' :: t) ++ post)) := by
    simp [emailChars]
  have hloc := takeWhile_dropWhile_all isLocalChar (l0 :: ls)
    ('@' :: ((d ++ '.' :: t) ++ post))
    (fun c hc => isLocalChar_of_alnum (hlc c hc))
    (fun c hc => by
      rw [List.head?_cons] at hc
      cases hc
      decide)
  have hdom := takeWhile_dropWhile_all isDomChar (d ++ '.' :: t) post
    (fun c hc => by
      rcases List.mem_append.mp hc with hm | hm
      · exact isDomChar_of_alnum (hdc c hm)
      · rcases List.mem_cons.mp hm with rfl | hm2
        · decide
        · exact isDomChar_of_alnum (isAlphanum_of_alpha (htc c hm2)))
    (fun c hc => (hpost c hc).1)
  have hb : atBoundary prev ((l0 :: ls) ++ ('@' :: ((d ++ '.' :: t) ++ post))).head? = true := by
    rw [List.cons_append, List.head?_cons]
    unfold atBoundary
    rw [hprev]
    simp [isWordOpt, isWordChar_of_alnum (hlc l0 (by simp))]
  rw [hcs]
  unfold matchEmailAt
  rw [if_pos hb, hloc.1, hloc.2]
  show (match tryDots (((d ++ '.' :: t) ++ post).takeWhile isDomChar)
      (((d ++ '.' :: t) ++ post).dropWhile isDomChar)
      ((((d ++ '.' :: t) ++ post).takeWhile isDomChar).length - 1) with
    | some (i, j) =>
      some (((l0 :: ls) ++ ('@' :: ((d ++ '.' :: t) ++ post))).take
        ((l0 :: ls).length + 1 + i + 1 + j))
    | none => none) = some (emailChars (l0 :: ls) d t)
  rw [hdom.1, hdom.2]
  rw [tryDots_full d t post hd hdc ht htc (fun c hc => ⟨(hpost c hc).2.1, (hpost c hc).2.2⟩)]
  have hlen : (l0 :: ls).length + 1 + d.length + 1 + t.length
      = (emailChars (l0 :: ls) d t).length := by
    simp [emailChars, List.length_append]
    omega
  have htake : ((l0 :: ls) ++ ('@' :: ((d ++ '.' :: t) ++ post))).take
      ((l0 :: ls).length + 1 + d.length + 1 + t.length) = emailChars (l0 :: ls) d t := by
    rw [hlen, ← hcs]
    exact List.take_left _ _
  exact congrArg some htake

theorem emailSearch_finds (pre l d t post : List Char)
    (hl : l ≠ []) (hlc : ∀ c ∈ l, c.isAlphanum = true)
    (hd : d ≠ []) (hdc : ∀ c ∈ d, c.isAlphanum = true)
    (ht : 2 ≤ t.length) (htc : ∀ c ∈ t, c.isAlpha = true)
    (hpre : '@' ∉ pre) (hpreEnd : pre = [] ∨ pre.getLast? = some ' ')
    (hpost : post = [] ∨ post.head? = some ' ') :
    searchEmailFrom none (pre ++ (emailChars l d t ++ post)) = some (emailChars l d t) := by
  have hpost2 : ∀ c, post.head? = some c →
      isDomChar c = false ∧ isTldChar c = false ∧ isWordChar c = false := by
    intro c hc
    rcases hpost with rfl | hsp
    · simp at hc
    · rw [hsp] at hc
      injection hc with hc2
      subst hc2
      exact ⟨by decide, by decide, by decide⟩
  have hmatch : ∀ prev, isWordOpt prev = false →
      searchEmailFrom prev (emailChars l d t ++ post) = some (emailChars l d t) := by
    intro prev hprev
    have hm := matchEmailAt_email prev l d t post hprev hl hlc hd hdc ht htc hpost2
    rcases hshape : l with _ | ⟨l0, ls⟩
    · exact absurd hshape hl
    subst hshape
    have hsh : emailChars (l0 :: ls) d t ++ post
        = l0 :: (ls ++ '@' :: d ++ '.' :: t ++ post) := by
      simp [emailChars]
    rw [hsh] at hm ⊢
    conv_lhs => rw [searchEmailFrom]
    rw [hm]
  rcases hpreEnd with rfl | hlast
  · simpa using hmatch none rfl
  · rw [searchEmailFrom_skip (emailChars l d t ++ post) pre none hpre hlast]
    exact hmatch (some ' ') rfl

theorem fallback_email_eq (m st : String) :
    (ResearchAgent.fallback_intent_analysis m st).email = emailSearch m := by
  unfold ResearchAgent.fallback_intent_analysis
  rcases he : emailSearch m with _ | e <;>
    by_cases hst : st = "awaiting_url_selection" <;>
    rcases hn : extractFirstNat m with _ | n <;>
    simp [he, hst, hn, pyTruthyOpt, apply_ite]

/-- C7: on any text built from a prefix with no at-sign ending in a
space (or empty), a well-formed email local@domain.tld, and a suffix
beginning with a space (or empty, and possibly holding further emails),
the fallback extractor returns exactly that email in its email field:
the first match wins and the surrounding words do not matter. -/
theorem claimC7_email_extraction (pre l d t post : List Char) (st : String)
    (hl : l ≠ []) (hlc : ∀ c ∈ l, c.isAlphanum = true)
    (hd : d ≠ []) (hdc : ∀ c ∈ d, c.isAlphanum = true)
    (ht : 2 ≤ t.length) (htc : ∀ c ∈ t, c.isAlpha = true)
    (hpre : '@' ∉ pre) (hpreEnd : pre = [] ∨ pre.getLast? = some ' ')
    (hpost : post = [] ∨ post.head? = some ' ') :
    (ResearchAgent.fallback_intent_analysis
        ((pre ++ (emailChars l d t ++ post)).asString) st).email
      = some (emailChars l d t).asString := by
  rw [fallback_email_eq]
  unfold emailSearch
  rw [toList_asString]
  rw [emailSearch_finds pre l d t post hl hlc hd hdc ht htc hpre hpreEnd hpost]
  rfl

/-- C7 witness: the extractor pulls john@acme.com out of a sentence with
words on both sides and a second email further right. -/
theorem claimC7_email_extraction_witness :
    (ResearchAgent.fallback_intent_analysis
        "Contact me at john@acme.com or sue@other.org thanks" "initial").email
      = some "john@acme.com" := by
  have h := claimC7_email_extraction
    "Contact me at ".toList "john".toList "acme".toList "com".toList
    " or sue@other.org thanks".toList "initial"
    (by decide) (by decide) (by decide) (by decide) (by decide) (by decide)
    (by decide) (Or.inr (by decide)) (Or.inr (by decide))
  have heq : ("Contact me at ".toList ++
      (emailChars "john".toList "acme".toList "com".toList
        ++ " or sue@other.org thanks".toList)).asString
      = "Contact me at john@acme.com or sue@other.org thanks" := by decide
  have heq2 : (emailChars "john".toList "acme".toList "com".toList).asString
      = "john@acme.com" := by decide
  rw [heq, heq2] at h
  exact h
